import Mathlib

/-!
Verification of the solar replication node (cmoid/solar) against its
natural-language specification.

The development shallow-embeds the parts of the source the claims are about:

* `src/src/storage/kv.rs` — the sled-backed key-value store (`KvStorage`):
  the prefix-partitioned key space, `get_pending_blobs`, `append_feed`.
* `src/solar/src/actors/muxrpc/ebt.rs` — the EBT replicate MUXRPC handler.
* `src/solar/src/actors/replication/ebt/replicator.rs` — the replicator loop.
* `src/solar/src/actors/muxrpc/blobs_wants.rs` — the blob want/have/get
  handler.

Machine integers are modelled as `Nat`/`Int` with explicit wrap where the
source's overflow semantics matter (the single place is the bitwise NOT on a
`u32` in the EBT version check).  Serialized byte strings are modelled at the
codec interface: a stored value / received payload is represented by the
result of parsing it, with one constructor per distinct wire encoding, so
that "decoding as the wrong type fails" is captured faithfully.
-/

namespace Solar

/-! ### Byte strings and keys

sled keys are byte strings ordered lexicographically.  Identities and blob
ids in solar are ASCII (base64 / hex SSB ids), for which `Char.toNat` agrees
with the UTF-8 bytes produced by `str::as_bytes`. -/

/-- The bytes of a string (`user_id.as_bytes()` in the source). -/
def strBytes (s : String) : List Nat :=
  s.data.map Char.toNat

/-- `String::from_utf8_lossy` on bytes that came from a string. -/
def bytesToStr (l : List Nat) : String :=
  String.mk (l.map Char.ofNat)

/-- The 8 bytes of `u64::to_be_bytes` (big-endian). -/
def beBytes8 (n : Nat) : List Nat :=
  [n / 72057594037927936 % 256, n / 281474976710656 % 256,
   n / 1099511627776 % 256, n / 4294967296 % 256,
   n / 16777216 % 256, n / 65536 % 256, n / 256 % 256, n % 256]

/-- Strict lexicographic order on byte strings: the order in which sled
iterates keys. -/
def keyLt : List Nat → List Nat → Bool
  | [], [] => false
  | [], _ :: _ => true
  | _ :: _, [] => false
  | a :: as, b :: bs => a < b || (a == b && keyLt as bs)

/-! ### KvStorage (src/src/storage/kv.rs) -/

/-- Key prefix for the latest sequence number of a feed (`PREFIX_LATEST_SEQ`). -/
def PFX_LATEST_SEQ : Nat := 0
/-- Key prefix for a message KVT (`PREFIX_MSG_KVT`). -/
def PFX_MSG_KVT : Nat := 1
/-- Key prefix for a message value reference (`PREFIX_MSG_VAL`). -/
def PFX_MSG_VAL : Nat := 2
/-- Key prefix for a blob status (`PREFIX_BLOB`). -/
def PFX_BLOB : Nat := 3
/-- Key prefix for a peer entry (`PREFIX_PEER`). -/
def PFX_PEER : Nat := 4

/-- `BlobStatus` from kv.rs. -/
structure BlobStatus where
  retrieved : Bool
  users : List String
deriving DecidableEq

/-- `PubKeyAndSeqNum` from kv.rs. -/
structure PubKeyAndSeqNum where
  pub_key : String
  seq_num : Nat
deriving DecidableEq

/-- The fields of a message value consulted by kv.rs: `author()`,
`sequence()` and `id()`.  Content, previous-hash and signature are never
read by the storage layer and are omitted. -/
structure MessageValue where
  author : String
  sequence : Nat
  id : String
deriving DecidableEq

/-- A value stored in the sled database, represented by its parse.  Each
constructor stands for a distinct wire encoding:

* `seqBE n` — the 8 bytes of `n.to_be_bytes()` (latest-seq and peer keys);
* `cborBlob s` — the serde_cbor encoding of a `BlobStatus` (a CBOR map);
* `cborMsgRef p` — the serde_cbor encoding of a `PubKeyAndSeqNum`;
* `kvtJson m` — the UTF-8 JSON of the message KVT wrapping `m`.

These encodings are pairwise distinguishable on the wire; in particular an
8-byte big-endian integer is not a valid serde_cbor `BlobStatus`: its first
byte parses as a small CBOR integer, not a map, and trailing bytes remain,
so `serde_cbor::from_slice::<BlobStatus>` fails on it. -/
inductive DbVal where
  | seqBE (n : Nat)
  | cborBlob (s : BlobStatus)
  | cborMsgRef (p : PubKeyAndSeqNum)
  | kvtJson (m : MessageValue)
deriving DecidableEq

/-- Error type of kv.rs (`Error`). -/
inductive KvError where
  | invalidSequence
  | cbor
deriving DecidableEq

/-- The sled tree: an association list from key bytes to values, kept sorted
in ascending key order (sled is an ordered B-tree). -/
abbrev Db := List (List Nat × DbVal)

/-- `db.insert(key, value)`: overwrite the binding and keep the list sorted
by key. -/
def dbInsert (db : Db) (key : List Nat) (v : DbVal) : Db :=
  match db with
  | [] => [(key, v)]
  | (k, w) :: rest =>
      if key = k then (key, v) :: rest
      else if keyLt key k then (key, v) :: (k, w) :: rest
      else (k, w) :: dbInsert rest key v

/-- `db.get(key)`. -/
def dbGet (db : Db) (key : List Nat) : Option DbVal :=
  match db with
  | [] => none
  | (k, w) :: rest => if k = key then some w else dbGet rest key

/-- `db.range(scan_key..)`: every entry whose key is `>= scan_key`, in
ascending key order.  The range has no upper bound. -/
def dbRange (db : Db) (scanKey : List Nat) : List (List Nat × DbVal) :=
  db.filter (fun e => !(keyLt e.1 scanKey))

/-- `KvStorage::key_latest_seq`. -/
def key_latest_seq (user_id : String) : List Nat :=
  PFX_LATEST_SEQ :: strBytes user_id

/-- `KvStorage::key_msg_kvt`. -/
def key_msg_kvt (user_id : String) (msg_seq : Nat) : List Nat :=
  PFX_MSG_KVT :: (beBytes8 msg_seq ++ strBytes user_id)

/-- `KvStorage::key_msg_val`. -/
def key_msg_val (msg_id : String) : List Nat :=
  PFX_MSG_VAL :: strBytes msg_id

/-- `KvStorage::key_blob`. -/
def key_blob (blob_id : String) : List Nat :=
  PFX_BLOB :: strBytes blob_id

/-- `KvStorage::key_peer`. -/
def key_peer (user_id : String) : List Nat :=
  PFX_PEER :: strBytes user_id

/-- `serde_cbor::from_slice::<BlobStatus>`: succeeds exactly on the
serde_cbor encoding of a `BlobStatus` (see `DbVal`). -/
def cborDecodeBlobStatus : DbVal → Except KvError BlobStatus
  | .cborBlob s => .ok s
  | _ => .error .cbor

/-- `KvStorage::set_blob`. -/
def set_blob (db : Db) (blob_id : String) (blob : BlobStatus) : Db :=
  dbInsert db (key_blob blob_id) (.cborBlob blob)

/-- `KvStorage::set_peer`. -/
def set_peer (db : Db) (user_id : String) (latest_seq : Nat) : Db :=
  dbInsert db (key_peer user_id) (.seqBE latest_seq)

/-- `KvStorage::get_latest_seq`.  The stored value at a latest-seq key is
always the 8-byte big-endian integer written by `append_feed`; any other
value would make the source's `copy_from_slice` into an 8-byte buffer
misbehave and is never produced. -/
def get_latest_seq (db : Db) (user_id : String) : Option Nat :=
  match dbGet db (key_latest_seq user_id) with
  | some (.seqBE n) => some n
  | _ => none

/-- The loop body of `KvStorage::get_pending_blobs`: iterate the range in
order, CBOR-decode every value as a `BlobStatus` (propagating the first
decode failure, as `?` does), and collect the ids of entries with
`retrieved = false`, dropping the prefix byte from the key. -/
def pendingLoop : List (List Nat × DbVal) → Except KvError (List String)
  | [] => .ok []
  | (k, v) :: rest => do
      let blob ← cborDecodeBlobStatus v
      let tail ← pendingLoop rest
      if !blob.retrieved then
        pure (bytesToStr (k.drop 1) :: tail)
      else
        pure tail

/-- `KvStorage::get_pending_blobs`: scans `db.range([PREFIX_BLOB]..)` — a
range with no upper bound, so every key `>= [0x03]` is visited, including
peer entries under prefix `0x04`. -/
def get_pending_blobs (db : Db) : Except KvError (List String) :=
  pendingLoop (dbRange db [PFX_BLOB])

/-- `StoKvEvent` from kv.rs. -/
inductive StoKvEvent where
  | idChanged (author : String)
deriving DecidableEq

/-- View of an `Except` as a sum, used to decide equality of results. -/
def exceptToSum : Except ε α → ε ⊕ α
  | .error e => .inl e
  | .ok a => .inr a

instance {ε α : Type} [DecidableEq ε] [DecidableEq α] : DecidableEq (Except ε α) :=
  fun a b =>
    decidable_of_iff (exceptToSum a = exceptToSum b)
      (by cases a <;> cases b <;> simp [exceptToSum])

/-- Result of one `append_feed` call: the database afterwards, the returned
value, and the broker events emitted. -/
structure AppendOutcome where
  db : Db
  result : Except KvError Nat
  events : List StoKvEvent
deriving DecidableEq

/-- `KvStorage::append_feed`: computes `seq_num = latest(author)+1` (absent
latest treated as 0), rejects the message with `InvalidSequence` when its
sequence differs — before any write — and otherwise persists the message
reference, the KVT, the updated latest-seq and the peer entry, then emits
`IdChanged(author)`. -/
def append_feed (db : Db) (msg_val : MessageValue) : AppendOutcome :=
  let seq_num := (get_latest_seq db msg_val.author).getD 0 + 1
  if msg_val.sequence ≠ seq_num then
    { db := db, result := .error .invalidSequence, events := [] }
  else
    let author := msg_val.author
    let db := dbInsert db (key_msg_val msg_val.id)
        (.cborMsgRef { pub_key := author, seq_num := seq_num })
    let db := dbInsert db (key_msg_kvt author seq_num) (.kvtJson msg_val)
    let db := dbInsert db (key_latest_seq author) (.seqBE seq_num)
    let db := set_peer db author seq_num
    { db := db, result := .ok seq_num, events := [.idChanged author] }

/-! ### EBT replicate handler (src/solar/src/actors/muxrpc/ebt.rs) and the
replicator loop (src/solar/src/actors/replication/ebt/replicator.rs) -/

/-- MUXRPC request numbers (`ReqNo = i32` in the source). -/
abbrev ReqNo := Int

/-- `SessionRole` (requester initiated the `ebt.replicate` call, responder
received it). -/
inductive SessionRole where
  | requester
  | responder
deriving DecidableEq

/-- A vector clock: JSON object mapping an SSB identity to an integer. -/
abbrev VectorClock := List (String × Int)

/-- `dto::EbtReplicate`: the arguments of an `ebt.replicate` request.
`version` is a `u32`. -/
structure EbtReplicateArgs where
  version : Nat
  format : String
deriving DecidableEq

/-- The body of an incoming MUXRPC request, after `ApiMethod::from_rpc_body`
and the serde deserialization of the args: either an `ebt.replicate` request
with its parsed argument array, or a request for some other method.
(Malformed argument JSON, which would make `serde_json::from_value` fail,
is outside the model; the claims concern well-formed requests.) -/
inductive EbtBody where
  | ebtReplicate (args : List EbtReplicateArgs)
  | otherMethod
deriving DecidableEq

/-- The payload of an incoming response or 'other' request, represented by
its parse (the source tries the decoders in this order): a JSON vector
clock, a message value that passes signature validation, a message KVT that
converts to a valid message value, or bytes that are none of these. -/
inductive EbtPayload where
  | clock (c : VectorClock)
  | message (m : String)
  | kvt (m : String)
  | invalid
deriving DecidableEq

/-- `rpc::RecvMsg` restricted to the shapes the EBT handler matches on. -/
inductive EbtRecvMsg where
  | rpcRequest (body : EbtBody)
  | otherRequest (payload : EbtPayload)
  | rpcResponse (payload : EbtPayload)
  | cancelStreamResponse
  | errorResponse (text : String)
deriving DecidableEq

/-- `EbtEvent` broker messages (the variants the modelled code produces or
consumes). -/
inductive EbtEvent where
  | sessionInitiated (conn_id : Nat) (req_no : ReqNo) (peer : String) (role : SessionRole)
  | sessionConcluded (conn_id : Nat) (peer : String)
  | sessionTimeout (peer : String)
  | terminateSession (conn_id : Nat) (role : SessionRole)
  | sendClock (conn_id : Nat) (req_no : ReqNo) (clock : VectorClock) (role : SessionRole)
  | sendMessage (conn_id : Nat) (req_no : ReqNo) (ssb_id : String) (msg : String) (role : SessionRole)
  | receivedClock (conn_id : Nat) (req_no : ReqNo) (peer : String) (clock : VectorClock)
  | receivedMessage (m : String)
  | errorEvent (conn_id : Nat) (peer : String) (text : String)
deriving DecidableEq

/-- `RpcInput` as seen by the EBT handler. -/
inductive EbtInput where
  | network (req_no : ReqNo) (msg : EbtRecvMsg)
  | message (ev : EbtEvent)
  | messageOther
  | timer
  | noInput
deriving DecidableEq

/-- Frames the handler writes through the codec (`api`).  Each constructor
records the request number passed to the framing layer, before the
negation that the framing layer itself applies. -/
inductive EbtFrame where
  | errorFrame (req_no : ReqNo) (text : String)
  | clockRes (req_no : ReqNo) (clock : VectorClock)
  | feedRes (req_no : ReqNo) (msg : String)
  | streamEof (req_no : ReqNo)
deriving DecidableEq

/-- The handler's error type (`Error::EbtReplicate`), plus a distinguished
outcome for the `args.pop().unwrap()` panic on an empty argument array. -/
inductive EbtError where
  | ebtReplicate (req_no : ReqNo) (text : String)
  | argsUnwrapNone
  | messageParseFailed
deriving DecidableEq

/-- `err.to_string()` for the Error event broadcast by the replicator. -/
def ebtErrorText : EbtError → String
  | .ebtReplicate req_no text => toString req_no ++ (": ") ++ text
  | .argsUnwrapNone => ("args unwrap on None")
  | .messageParseFailed => ("message parse failed")

/-- Result of one `EbtReplicateHandler::handle` call: the `active_request`
field afterwards, the frames written, the broker events broadcast, and the
returned value. -/
structure EbtStep where
  active_request : ReqNo
  frames : List EbtFrame
  events : List EbtEvent
  result : Except EbtError Bool
deriving DecidableEq

/-- Bitwise NOT on a `u32` value (`!v` in Rust for `v : u32`). -/
def u32_not (v : Nat) : Nat := 4294967295 - v

/-- `EbtReplicateHandler::recv_ebtreplicate`.  Note the version check in the
source is `if !args.version == 3`: `!` binds tighter than `==` in Rust and
is bitwise NOT on `u32`, so the error branch fires exactly when
`version = 4294967292`, not when `version ≠ 3`. -/
def recv_ebtreplicate (active_request : ReqNo) (req_no : ReqNo)
    (args : List EbtReplicateArgs) (peer_ssb_id : String) (connection_id : Nat) :
    EbtStep :=
  match args.getLast? with
  | none =>
      { active_request := active_request, frames := [], events := [],
        result := .error .argsUnwrapNone }
  | some a =>
      if u32_not a.version == 3 then
        { active_request := active_request,
          frames := [.errorFrame req_no ("ebt version != 3")], events := [],
          result := .error (.ebtReplicate req_no ("ebt version != 3")) }
      else if a.format ≠ ("classic") then
        { active_request := active_request,
          frames := [.errorFrame req_no ("ebt format != classic")], events := [],
          result := .error (.ebtReplicate req_no ("ebt format != classic")) }
      else
        { active_request := req_no, frames := [],
          events := [.sessionInitiated connection_id req_no peer_ssb_id .responder],
          result := .ok false }

/-- `EbtReplicateHandler::recv_rpc_response`: only frames whose request
number matches `active_request` up to sign are handled; a clock is broadcast
as `ReceivedClock`, a valid message (value or KVT) as `ReceivedMessage`, and
anything else surfaces a handler error. -/
def recv_rpc_response (active_request : ReqNo) (req_no : ReqNo)
    (payload : EbtPayload) (peer_ssb_id : String) (connection_id : Nat) :
    EbtStep :=
  if active_request == req_no || active_request == -req_no then
    match payload with
    | .clock c =>
        { active_request := active_request, frames := [],
          events := [.receivedClock connection_id req_no peer_ssb_id c],
          result := .ok false }
    | .message m =>
        { active_request := active_request, frames := [],
          events := [.receivedMessage m], result := .ok false }
    | .kvt m =>
        { active_request := active_request, frames := [],
          events := [.receivedMessage m], result := .ok false }
    | .invalid =>
        { active_request := active_request, frames := [], events := [],
          result := .error .messageParseFailed }
  else
    { active_request := active_request, frames := [], events := [],
      result := .ok false }

/-- `EbtReplicateHandler::handle`: the full input dispatch.  On entry the
handler overwrites `active_request` with `active_req_no` when the latter is
set (an outbound replicate request was already made). -/
def ebtHandle (active_request : ReqNo) (input : EbtInput) (peer_ssb_id : String)
    (connection_id : Nat) (active_req_no : Option ReqNo) : EbtStep :=
  let active_request := active_req_no.getD active_request
  match input with
  | .network req_no (.rpcRequest body) =>
      match body with
      | .ebtReplicate args =>
          recv_ebtreplicate active_request req_no args peer_ssb_id connection_id
      | .otherMethod =>
          { active_request := active_request, frames := [], events := [],
            result := .ok false }
  | .network req_no (.otherRequest payload) =>
      match payload with
      | .clock c =>
          { active_request := active_request, frames := [],
            events := [.receivedClock connection_id req_no peer_ssb_id c],
            result := .ok false }
      | _ =>
          { active_request := active_request, frames := [], events := [],
            result := .ok false }
  | .network req_no (.rpcResponse payload) =>
      recv_rpc_response active_request req_no payload peer_ssb_id connection_id
  | .network req_no .cancelStreamResponse =>
      { active_request := active_request, frames := [.streamEof (-req_no)],
        events := [], result := .ok true }
  | .network req_no (.errorResponse err) =>
      { active_request := active_request, frames := [], events := [],
        result := .error (.ebtReplicate req_no err) }
  | .message (.terminateSession conn_id role) =>
      if conn_id = connection_id then
        let req_no := match role with
          | .requester => active_request
          | .responder => -active_request
        { active_request := active_request, frames := [.streamEof (-req_no)],
          events := [], result := .ok true }
      else
        { active_request := active_request, frames := [], events := [],
          result := .ok false }
  | .message (.sendClock conn_id req_no clock role) =>
      let req_no' := match role with
        | .requester => -req_no
        | .responder => req_no
      if conn_id = connection_id then
        { active_request := active_request, frames := [.clockRes req_no' clock],
          events := [], result := .ok false }
      else
        { active_request := active_request, frames := [], events := [],
          result := .ok false }
  | .message (.sendMessage conn_id req_no _ssb_id msg role) =>
      let req_no' := match role with
        | .requester => -req_no
        | .responder => req_no
      if conn_id = connection_id then
        { active_request := active_request, frames := [.feedRes req_no' msg],
          events := [], result := .ok false }
      else
        { active_request := active_request, frames := [], events := [],
          result := .ok false }
  | .message _ =>
      { active_request := active_request, frames := [], events := [],
        result := .ok false }
  | .messageOther =>
      { active_request := active_request, frames := [], events := [],
        result := .ok false }
  | .timer =>
      { active_request := active_request, frames := [], events := [],
        result := .ok false }
  | .noInput =>
      { active_request := active_request, frames := [], events := [],
        result := .ok false }

/-- Whether the replicator loop continues or concludes the session. -/
inductive LoopDecision where
  | nextIteration
  | concluded
deriving DecidableEq

/-- Broker events emitted by one replicator loop iteration, and the loop
decision. -/
structure ReplicatorStep where
  events : List EbtEvent
  decision : LoopDecision
deriving DecidableEq

/-- One iteration of the `run` loop in replicator.rs, after the handler has
been called: `Ok(true)` breaks, an error broadcasts `Error` and breaks, and
otherwise the responder timeout is checked; every path that breaks then
broadcasts `SessionConcluded` after the loop. -/
def replicatorLoopStep (handler_result : Except EbtError Bool)
    (session_initiated : Bool) (session_role : SessionRole) (timed_out : Bool)
    (connection_id : Nat) (peer_ssb_id : String) : ReplicatorStep :=
  match handler_result with
  | .ok true =>
      { events := [.sessionConcluded connection_id peer_ssb_id],
        decision := .concluded }
  | .error e =>
      { events := [.errorEvent connection_id peer_ssb_id (ebtErrorText e),
                   .sessionConcluded connection_id peer_ssb_id],
        decision := .concluded }
  | .ok false =>
      if !session_initiated && session_role == .responder && timed_out then
        { events := [.sessionTimeout peer_ssb_id,
                     .sessionConcluded connection_id peer_ssb_id],
          decision := .concluded }
      else
        { events := [], decision := .nextIteration }

/-! ### Blobs wants handler (src/solar/src/actors/muxrpc/blobs_wants.rs)

The handler reads and writes the global `BLOB_STORE` (`BlobStorage`,
`src/storage/blob.rs`), which is not among the provided sources; its two
operations are modelled from the spec below.  String-keyed maps
(`HashMap<String, _>`) are modelled as association lists with
overwrite-on-insert; the map iteration order of the source is arbitrary, the
model iterates in list order, and map-content statements are phrased so the
order does not matter. -/

/-- Lookup in an association list (`HashMap::get`). -/
def mapLookup {α : Type} : List (String × α) → String → Option α
  | [], _ => none
  | (k, v) :: rest, key => if k = key then some v else mapLookup rest key

/-- Insert into an association list, overwriting an existing binding
(`HashMap::insert`). -/
def mapInsert {α : Type} : List (String × α) → String → α → List (String × α)
  | [], key, v => [(key, v)]
  | (k, w) :: rest, key, v =>
      if k = key then (key, v) :: rest else (k, w) :: mapInsert rest key v

/-- `HashMap::contains_key`. -/
def mapContains {α : Type} (m : List (String × α)) (key : String) : Bool :=
  (mapLookup m key).isSome

/-- `Wants` from blobs_wants.rs: the per-blob state in the wants table. -/
inductive Wants where
  | pending
  | requested (req_no : Int)
  | available
deriving DecidableEq

/-- Modelled from the spec: the blob store (`BlobStorage` in
`src/storage/blob.rs` is not under the provided sources).  Spec §4.2:
`size_of(blob_id)` returns the byte length of the stored blob if present,
else absent; `insert(blob_bytes)` content-hashes the bytes and persists them
under the resulting id.  The content hash itself is an external primitive
(spec §1) and is passed to the step functions as an explicit function
argument; no property of it is assumed. -/
structure BlobStore where
  blobs : List (String × List Nat)
deriving DecidableEq

/-- Modelled from the spec: `size_of(blob_id)` — bytes length if present. -/
def BlobStore.size_of (st : BlobStore) (blob_id : String) : Option Nat :=
  (mapLookup st.blobs blob_id).map List.length

/-- Modelled from the spec: `insert(blob_bytes)` persists the bytes under
their content-hash id. -/
def BlobStore.insertBlob (st : BlobStore) (id : String) (data : List Nat) :
    BlobStore :=
  ⟨mapInsert st.blobs id data⟩

/-- The handler's error/abort outcomes: `unwrapNone f` models the Rust
panic of `Option::unwrap` on `None` for the field named `f`; `deser` models
a failed `serde_json::from_slice`; `storeFailed` a failed blob-store
write. -/
inductive BlobsErr where
  | unwrapNone (field : String)
  | deser
  | storeFailed
deriving DecidableEq

/-- The payload of a MUXRPC response frame, represented by its parse: bytes
that deserialize as a JSON string-to-integer map, or bytes that do not
(raw blob data). -/
inductive BlobsPayload where
  | json (m : List (String × Int))
  | raw (bytes : List Nat)
deriving DecidableEq

/-- A deterministic stand-in for the wire bytes of a JSON map, used only
when such a payload is content-hashed or stored; no claim depends on the
exact encoding. -/
def jsonMapBytes (m : List (String × Int)) : List Nat :=
  m.foldr (fun e acc => strBytes e.1 ++ [e.2.natAbs % 256] ++ acc) []

/-- The raw bytes of a payload. -/
def BlobsPayload.bytes : BlobsPayload → List Nat
  | .json m => jsonMapBytes m
  | .raw b => b

/-- `serde_json::from_slice::<HashMap<String, i64>>` on the payload bytes. -/
def BlobsPayload.parseMap : BlobsPayload → Except BlobsErr (List (String × Int))
  | .json m => .ok m
  | .raw _ => .error .deser

/-- `BlobsWantsHandler` state.  `inited` is the source's `initialized`
flag; `api_next_req_no` is the codec's next locally allocated request
number (spec §4.3: allocated monotonically from +1 per connection), which
`blob_create_wants_req_send` and `blobs_get_req_send` consume; `store` is
the global blob store as visible to this connection. -/
structure BlobsWantsState where
  inited : Bool
  peer_wants_req_no : Option Int
  my_wants_req_no : Option Int
  peer_wants : List (String × Wants)
  api_next_req_no : Int
  store : BlobStore
deriving DecidableEq

/-- Frames the handler sends through the codec. -/
inductive BlobsFrame where
  | createWantsReq (req_no : Int)
  | response (req_no : Int) (body : List (String × Int))
  | blobsGetReq (req_no : Int) (key : String)
deriving DecidableEq

/-- `ApiMethod` tags relevant to this handler. -/
inductive BlobsMethod where
  | blobsCreateWants
  | otherMethod
deriving DecidableEq

/-- `rpc::RecvMsg` restricted to the shapes this handler matches on. -/
inductive BlobsRecvMsg where
  | rpcRequest (method : BlobsMethod)
  | rpcResponse (payload : BlobsPayload)
  | errorResponse (text : String)
deriving DecidableEq

/-- Broker messages this handler consumes. -/
inductive BlobsBrokerMsg where
  | rpcBlobsWants (ids : List (String × Int))
  | storeBlob (blob_id : String)
  | otherMsg
deriving DecidableEq

/-- `RpcInput` as seen by the blobs wants handler. -/
inductive BlobsInput where
  | network (req_no : Int) (msg : BlobsRecvMsg)
  | message (msg : BlobsBrokerMsg)
  | timer
  | noInput
deriving DecidableEq

/-- Result of one `BlobsWantsHandler::handle` call: the state afterwards,
frames written, `RpcBlobsWants` broker broadcasts sent, the successful blob
store inserts performed in the step (wants-table entry id paired with the
inserted bytes), warnings logged, and the returned value. -/
structure BlobsStep where
  state : BlobsWantsState
  frames : List BlobsFrame
  broadcasts : List (List (String × Int))
  inserts : List (String × List Nat)
  warns : List String
  result : Except BlobsErr Bool
deriving DecidableEq

/-- A step that only returns, with no effect. -/
def blobsNoop (s : BlobsWantsState) (r : Except BlobsErr Bool) : BlobsStep :=
  { state := s, frames := [], broadcasts := [], inserts := [], warns := [],
    result := r }

/-- `BlobsWantsHandler::recv_create_wants`: record the peer's
`blobs.createWants` request number if not yet set. -/
def recv_create_wants (s : BlobsWantsState) (req_no : Int) : BlobsStep :=
  if s.peer_wants_req_no.isNone then
    blobsNoop { s with peer_wants_req_no := some req_no } (.ok true)
  else
    blobsNoop s (.ok true)

/-- `BlobsWantsHandler::event_wants_broadcast`: forward to our peer every
broadcast blob id not already in our wants table.  The send unwraps
`my_wants_req_no`, which panics when no Timer input has initialized it. -/
def event_wants_broadcast (s : BlobsWantsState) (broadcast : List (String × Int)) :
    BlobsStep :=
  let wants := broadcast.foldl
      (fun acc e =>
        if mapContains s.peer_wants e.1 then acc else mapInsert acc e.1 e.2) []
  match s.my_wants_req_no with
  | none => blobsNoop s (.error (.unwrapNone ("my_wants_req_no")))
  | some n => { blobsNoop s (.ok true) with frames := [.response n wants] }

/-- `BlobsWantsHandler::event_stoblob_added`: when a freshly stored blob is
in the wants table, announce a have `{blob_id: 1}` on the peer-wants
channel. -/
def event_stoblob_added (s : BlobsWantsState) (blob_id : String) : BlobsStep :=
  if mapContains s.peer_wants blob_id then
    match s.peer_wants_req_no with
    | none => blobsNoop s (.error (.unwrapNone ("peer_wants_req_no")))
    | some p =>
        { blobsNoop s (.ok true) with frames := [.response p [(blob_id, 1)]] }
  else
    blobsNoop s (.ok true)

/-- The loop of `recv_wants`: for each wanted blob, look up its size in the
store; collect `(id, size)` into the haves when present, otherwise insert a
`Pending` wants entry and collect `(id, distance+1)` for onward broadcast.
Returns the updated wants table, the haves and the broadcast list. -/
def wantsLoop (store : BlobStore) (pw : List (String × Wants)) :
    List (String × Int) →
      List (String × Wants) × List (String × Int) × List (String × Int)
  | [] => (pw, [], [])
  | (want, distance) :: rest =>
      match store.size_of want with
      | some size =>
          let r := wantsLoop store pw rest
          (r.1, (want, (size : Int)) :: r.2.1, r.2.2)
      | none =>
          let r := wantsLoop store (mapInsert pw want .pending) rest
          (r.1, r.2.1, (want, distance + 1) :: r.2.2)

/-- `BlobsWantsHandler::recv_wants`: parse the wants map, split it into
haves and unsatisfied wants, answer the haves on `peer_wants_req_no`
(unwrapping it — a panic when the peer never sent `blobs.createWants`),
and broadcast the unsatisfied wants.  The wants-table insertions of the
loop happen before the unwrap. -/
def recv_wants (s : BlobsWantsState) (payload : BlobsPayload) : BlobsStep :=
  match payload.parseMap with
  | .error e => blobsNoop s (.error e)
  | .ok wants =>
      let r := wantsLoop s.store s.peer_wants wants
      let s' := { s with peer_wants := r.1 }
      match s.peer_wants_req_no with
      | none => blobsNoop s' (.error (.unwrapNone ("peer_wants_req_no")))
      | some p =>
          { state := s', frames := [.response p r.2.1], broadcasts := [r.2.2],
            inserts := [], warns := [], result := .ok true }

/-- The loop of `recv_haves`: for each announced blob id, `get_mut` on the
wants table returns the entry whenever one is present — in any state — and
then a `blobs.get` request is issued (consuming the next request number)
and the entry is set to `Requested(req_no)`. -/
def havesLoop (pw : List (String × Wants)) (next_req_no : Int) :
    List (String × Int) → List (String × Wants) × Int × List BlobsFrame
  | [] => (pw, next_req_no, [])
  | (blob_id, _) :: rest =>
      if mapContains pw blob_id then
        let r :=
          havesLoop (mapInsert pw blob_id (.requested next_req_no))
            (next_req_no + 1) rest
        (r.1, r.2.1, .blobsGetReq next_req_no blob_id :: r.2.2)
      else
        havesLoop pw next_req_no rest

/-- `BlobsWantsHandler::recv_haves`. -/
def recv_haves (s : BlobsWantsState) (payload : BlobsPayload) : BlobsStep :=
  match payload.parseMap with
  | .error e => blobsNoop s (.error e)
  | .ok haves =>
      let r := havesLoop s.peer_wants s.api_next_req_no haves
      { state := { s with peer_wants := r.1, api_next_req_no := r.2.1 },
        frames := r.2.2, broadcasts := [], inserts := [], warns := [],
        result := .ok true }

/-- `BlobsWantsHandler::recv_blobs_get`: find the (first) wants entry in
state `Requested(req_no)` (`unwrap` panics when none matches), content-hash
the arriving bytes, log a warning when the hash differs from the expected
blob id, insert the bytes into the blob store regardless, and set the entry
to `Available`.  `insert_ok` is the environment's verdict on whether the
store write succeeds; on failure the `?` operator returns before the entry
is touched. -/
def recv_blobs_get (hash : List Nat → String) (insert_ok : List Nat → Bool)
    (s : BlobsWantsState) (req_no : Int) (payload : BlobsPayload) : BlobsStep :=
  match s.peer_wants.find? (fun e => e.2 == Wants.requested req_no) with
  | none => blobsNoop s (.error (.unwrapNone ("requested entry")))
  | some entry =>
      let data := payload.bytes
      let current_blob_id := hash data
      let warns :=
        if current_blob_id ≠ entry.1 then
          [("Recieved blob hash is not the expected")]
        else []
      if insert_ok data then
        { state := { s with
              store := s.store.insertBlob current_blob_id data,
              peer_wants := mapInsert s.peer_wants entry.1 .available },
          frames := [], broadcasts := [], inserts := [(entry.1, data)],
          warns := warns, result := .ok true }
      else
        { state := s, frames := [], broadcasts := [], inserts := [],
          warns := warns, result := .error .storeFailed }

/-- `BlobsWantsHandler::handle`: the full input dispatch.  A response frame
is classified by request number: on `my_wants_req_no` it is a wants
announcement, on `peer_wants_req_no` a haves announcement, and on a request
number some wants entry holds as `Requested(n)` it is blob payload. -/
def blobsHandle (hash : List Nat → String) (insert_ok : List Nat → Bool)
    (s : BlobsWantsState) (input : BlobsInput) : BlobsStep :=
  match input with
  | .network req_no (.rpcRequest .blobsCreateWants) => recv_create_wants s req_no
  | .network _ (.rpcRequest .otherMethod) => blobsNoop s (.ok false)
  | .network req_no (.rpcResponse payload) =>
      if s.my_wants_req_no == some req_no then
        recv_wants s payload
      else if s.peer_wants_req_no == some req_no then
        recv_haves s payload
      else if s.peer_wants.any (fun e => e.2 == Wants.requested req_no) then
        recv_blobs_get hash insert_ok s req_no payload
      else
        blobsNoop s (.ok false)
  | .network req_no (.errorResponse _) =>
      if some req_no == s.my_wants_req_no || some req_no == s.peer_wants_req_no then
        blobsNoop s (.ok true)
      else
        blobsNoop s (.ok false)
  | .message (.rpcBlobsWants ids) => event_wants_broadcast s ids
  | .message (.storeBlob blob_id) => event_stoblob_added s blob_id
  | .message .otherMsg => blobsNoop s (.ok false)
  | .timer =>
      if !s.inited then
        { state := { s with
              my_wants_req_no := some s.api_next_req_no,
              inited := true,
              api_next_req_no := s.api_next_req_no + 1 },
          frames := [.createWantsReq s.api_next_req_no], broadcasts := [],
          inserts := [], warns := [], result := .ok false }
      else
        blobsNoop s (.ok false)
  | .noInput => blobsNoop s (.ok false)

/-- The handler's initial state for one connection (`Default::default()`),
over an initial blob store and the codec's first request number. -/
def blobsInit (store0 : BlobStore) (api_start : Int) : BlobsWantsState :=
  { inited := false, peer_wants_req_no := none, my_wants_req_no := none,
    peer_wants := [], api_next_req_no := api_start, store := store0 }

/-- Run the handler over a sequence of inputs, accumulating the successful
store inserts of every step. -/
def blobsRun (hash : List Nat → String) (insert_ok : List Nat → Bool) :
    BlobsWantsState → List BlobsInput →
      BlobsWantsState × List (String × List Nat)
  | s, [] => (s, [])
  | s, i :: rest =>
      let st := blobsHandle hash insert_ok s i
      let r := blobsRun hash insert_ok st.state rest
      (r.1, st.inserts ++ r.2)

/-- C1: divergence of the EBT version check.  The source guards with
`if !args.version == 3`, which Rust parses as `(!args.version) == 3` with
`!` the bitwise NOT on `u32`, so a request with `version: 2` and
`format: "classic"` passes validation: no error frame is written, the
handler returns `Ok(false)`, `active_request` is set and `SessionInitiated`
is broadcast — while the claim (and the source's own error text
`"ebt version != 3"`) require an error reply and a failed session.  The
error branch fires only for `version = 4294967292` (`= !3` on `u32`); a
well-formed `version: 3` request passes as the claim states. -/
theorem ebt_replicate_version_check_divergence :
    (ebtHandle 0
        (.network 1 (.rpcRequest (.ebtReplicate [{ version := 2, format := ("classic") }])))
        ("peer") 7 none
      = { active_request := 1, frames := [],
          events := [.sessionInitiated 7 1 ("peer") .responder],
          result := .ok false }) ∧
    (ebtHandle 0
        (.network 1 (.rpcRequest (.ebtReplicate [{ version := 4294967292, format := ("classic") }])))
        ("peer") 7 none
      = { active_request := 0,
          frames := [.errorFrame 1 ("ebt version != 3")], events := [],
          result := .error (.ebtReplicate 1 ("ebt version != 3")) }) ∧
    (ebtHandle 0
        (.network 1 (.rpcRequest (.ebtReplicate [{ version := 3, format := ("classic") }])))
        ("peer") 7 none
      = { active_request := 1, frames := [],
          events := [.sessionInitiated 7 1 ("peer") .responder],
          result := .ok false }) := by
  refine ⟨rfl, rfl, rfl⟩

/-- C5: on a `SendClock` or `SendMessage` broker event for this handler's
connection, the request number passed to the framing layer is `-req_no` for
a session requester and `+req_no` for a responder; an event carrying a
different connection id writes no frame at all. -/
theorem ebt_send_sign_convention (ar : ReqNo) (conn ev_conn : Nat) (req_no : ReqNo)
    (clock : VectorClock) (peer ssb_id msg : String) (role : SessionRole)
    (arn : Option ReqNo) :
    ((ebtHandle ar (.message (.sendClock ev_conn req_no clock role)) peer conn arn).frames
      = if ev_conn = conn then
          [.clockRes (match role with | .requester => -req_no | .responder => req_no) clock]
        else []) ∧
    ((ebtHandle ar (.message (.sendMessage ev_conn req_no ssb_id msg role)) peer conn arn).frames
      = if ev_conn = conn then
          [.feedRes (match role with | .requester => -req_no | .responder => req_no) msg]
        else []) := by
  cases role <;> by_cases h : ev_conn = conn <;> simp [ebtHandle, h]

/-- C10: an incoming MUXRPC error-response frame — whatever its request
number, matching `active_request` or not — makes the EBT handler return an
error, upon which the replicator loop broadcasts `Error` and then
`SessionConcluded`, in that order, and concludes the session. -/
theorem ebt_error_response_fails_session (ar : ReqNo) (req_no : ReqNo) (err : String)
    (peer : String) (conn : Nat) (arn : Option ReqNo) (si : Bool)
    (role : SessionRole) (timed_out : Bool) :
    (ebtHandle ar (.network req_no (.errorResponse err)) peer conn arn).result
      = .error (.ebtReplicate req_no err) ∧
    replicatorLoopStep
        (ebtHandle ar (.network req_no (.errorResponse err)) peer conn arn).result
        si role timed_out conn peer
      = { events := [.errorEvent conn peer (ebtErrorText (.ebtReplicate req_no err)),
                     .sessionConcluded conn peer],
          decision := .concluded } := by
  constructor <;> rfl

/-! ### Helper lemmas -/

/-- Lookup after an overwrite-insert. -/
theorem mapLookup_mapInsert {α : Type} (m : List (String × α)) (k b : String) (v : α) :
    mapLookup (mapInsert m k v) b = if k = b then some v else mapLookup m b := by
  induction m with
  | nil => simp [mapInsert, mapLookup]
  | cons hd tl ih =>
      obtain ⟨q, w⟩ := hd
      by_cases h1 : q = k
      · subst h1
        by_cases h2 : q = b <;> simp [mapInsert, mapLookup, h2]
      · by_cases h2 : q = b
        · have hkb : ¬k = b := fun hh => h1 (h2.trans hh.symm)
          simp [mapInsert, mapLookup, h1, h2, hkb, Ne.symm hkb]
        · simp [mapInsert, mapLookup, h1, h2, ih]

/-- Containment after an overwrite-insert. -/
theorem mapContains_mapInsert_iff {α : Type} (m : List (String × α)) (k b : String)
    (v : α) :
    mapContains (mapInsert m k v) b = true ↔ (k = b ∨ mapContains m b = true) := by
  by_cases h : k = b <;> simp [mapContains, mapLookup_mapInsert, h]

/-- Overwriting an existing key does not change the key set. -/
theorem mapContains_mapInsert_of_contains {α : Type} (m : List (String × α))
    (k b : String) (v : α) (h : mapContains m k = true) :
    mapContains (mapInsert m k v) b = mapContains m b := by
  by_cases hkb : k = b
  · subst hkb
    simp [mapContains, mapLookup_mapInsert]
    simpa [mapContains] using h
  · simp [mapContains, mapLookup_mapInsert, hkb]

/-- The wants table produced by the `recv_wants` loop: a `Pending` entry for
every wanted id absent from the store, everything else untouched. -/
theorem wantsLoop_lookup (store : BlobStore) (wants : List (String × Int)) :
    ∀ pw id, mapLookup (wantsLoop store pw wants).1 id =
      if id ∈ wants.map Prod.fst ∧ store.size_of id = none then some .pending
      else mapLookup pw id := by
  induction wants with
  | nil => intro pw id; simp [wantsLoop]
  | cons hd tl ih =>
      intro pw id
      obtain ⟨w, d⟩ := hd
      cases hsz : store.size_of w with
      | some n =>
          simp only [wantsLoop, hsz]
          rw [ih]
          by_cases hid : id = w
          · subst hid; simp [hsz]
          · cases hsz2 : store.size_of id with
            | some m => simp [hsz2]
            | none =>
                by_cases hmem : id ∈ List.map Prod.fst tl <;>
                  simp [hsz2, hmem, List.mem_cons, hid]
      | none =>
          simp only [wantsLoop, hsz]
          rw [ih]
          by_cases hid : id = w
          · subst hid; simp [hsz, mapLookup_mapInsert]
          · cases hsz2 : store.size_of id with
            | some m => simp [hsz2, mapLookup_mapInsert, Ne.symm hid]
            | none =>
                by_cases hmem : id ∈ List.map Prod.fst tl <;>
                  simp [hsz2, hmem, List.mem_cons, hid, mapLookup_mapInsert,
                    Ne.symm hid]

/-- The haves collected by the `recv_wants` loop are exactly the wanted ids
present in the store, paired with their stored size. -/
theorem wantsLoop_haves_mem (store : BlobStore) (wants : List (String × Int)) :
    ∀ pw id v, (id, v) ∈ (wantsLoop store pw wants).2.1 ↔
      ∃ d, (id, d) ∈ wants ∧ ∃ n, store.size_of id = some n ∧ v = (n : Int) := by
  induction wants with
  | nil => intro pw id v; simp [wantsLoop]
  | cons hd tl ih =>
      intro pw id v
      obtain ⟨w, d⟩ := hd
      cases hsz : store.size_of w with
      | some n =>
          simp only [wantsLoop, hsz, List.mem_cons, ih]
          constructor
          · rintro (hh | ⟨d', hmem, n', hsz', hv⟩)
            · rcases Prod.mk.injEq .. ▸ hh with ⟨h1, h2⟩
              exact ⟨d, Or.inl (by rw [h1]), n, by rw [h1]; exact ⟨hsz, h2⟩⟩
            · exact ⟨d', Or.inr hmem, n', hsz', hv⟩
          · rintro ⟨d', hmem, n', hsz', hv⟩
            rcases hmem with hh | hmem
            · rcases Prod.mk.injEq .. ▸ hh with ⟨h1, h2⟩
              left
              subst h1
              rw [hsz] at hsz'
              cases hsz'
              rw [hv]
            · exact Or.inr ⟨d', hmem, n', hsz', hv⟩
      | none =>
          simp only [wantsLoop, hsz, ih]
          constructor
          · rintro ⟨d', hmem, n', hsz', hv⟩
            exact ⟨d', List.mem_cons_of_mem _ hmem, n', hsz', hv⟩
          · rintro ⟨d', hmem, n', hsz', hv⟩
            rcases List.mem_cons.mp hmem with hh | hmem
            · rcases Prod.mk.injEq .. ▸ hh with ⟨h1, _⟩
              subst h1
              rw [hsz] at hsz'
              cases hsz'
            · exact ⟨d', hmem, n', hsz', hv⟩

/-- The onward broadcast collected by the `recv_wants` loop is exactly the
wanted ids absent from the store, with distance incremented. -/
theorem wantsLoop_broadcast_mem (store : BlobStore) (wants : List (String × Int)) :
    ∀ pw id v, (id, v) ∈ (wantsLoop store pw wants).2.2 ↔
      ∃ d, (id, d) ∈ wants ∧ store.size_of id = none ∧ v = d + 1 := by
  induction wants with
  | nil => intro pw id v; simp [wantsLoop]
  | cons hd tl ih =>
      intro pw id v
      obtain ⟨w, d⟩ := hd
      cases hsz : store.size_of w with
      | some n =>
          simp only [wantsLoop, hsz, ih]
          constructor
          · rintro ⟨d', hmem, hsz', hv⟩
            exact ⟨d', List.mem_cons_of_mem _ hmem, hsz', hv⟩
          · rintro ⟨d', hmem, hsz', hv⟩
            rcases List.mem_cons.mp hmem with hh | hmem
            · rcases Prod.mk.injEq .. ▸ hh with ⟨h1, _⟩
              subst h1
              rw [hsz] at hsz'
              cases hsz'
            · exact ⟨d', hmem, hsz', hv⟩
      | none =>
          simp only [wantsLoop, hsz, List.mem_cons, ih]
          constructor
          · rintro (hh | ⟨d', hmem, hsz', hv⟩)
            · rcases Prod.mk.injEq .. ▸ hh with ⟨h1, h2⟩
              subst h1
              exact ⟨d, Or.inl rfl, hsz, h2⟩
            · exact ⟨d', Or.inr hmem, hsz', hv⟩
          · rintro ⟨d', hmem, hsz', hv⟩
            rcases hmem with hh | hmem
            · rcases Prod.mk.injEq .. ▸ hh with ⟨h1, h2⟩
              subst h1; subst h2
              left
              rw [hv]
            · exact Or.inr ⟨d', hmem, hsz', hv⟩

/-- The `recv_haves` loop never adds or removes wants-table keys: it only
overwrites entries that are already present. -/
theorem havesLoop_contains (anns : List (String × Int)) :
    ∀ pw nxt id, mapContains (havesLoop pw nxt anns).1 id = mapContains pw id := by
  induction anns with
  | nil => intro pw nxt id; simp [havesLoop]
  | cons hd tl ih =>
      intro pw nxt id
      obtain ⟨b, d⟩ := hd
      by_cases hc : mapContains pw b = true
      · simp only [havesLoop, hc, if_pos]
        rw [ih]
        exact mapContains_mapInsert_of_contains pw b id _ hc
      · simp only [havesLoop, if_neg hc]
        exact ih pw nxt id

/-- Wants-table entries whose id is not announced are untouched by the
`recv_haves` loop. -/
theorem havesLoop_lookup_notmem (anns : List (String × Int)) :
    ∀ pw nxt id, id ∉ anns.map Prod.fst →
      mapLookup (havesLoop pw nxt anns).1 id = mapLookup pw id := by
  induction anns with
  | nil => intro pw nxt id _; simp [havesLoop]
  | cons hd tl ih =>
      intro pw nxt id hmem
      obtain ⟨b, d⟩ := hd
      have hib : ¬b = id := by
        intro hh
        exact hmem (by simp [hh, List.mem_cons])
      have htl : id ∉ tl.map Prod.fst := by
        intro hh
        exact hmem (List.mem_cons_of_mem _ hh)
      by_cases hc : mapContains pw b = true
      · simp only [havesLoop, hc, if_pos]
        rw [ih _ _ _ htl, mapLookup_mapInsert]
        simp [hib]
      · simp only [havesLoop, if_neg hc]
        exact ih pw nxt id htl

/-- Every announced id with a wants-table entry gets a `blobs.get` request
and ends in state `Requested(r)` for the request number `r` of that
request. -/
theorem havesLoop_present (anns : List (String × Int)) :
    ∀ pw nxt id, (anns.map Prod.fst).Nodup → id ∈ anns.map Prod.fst →
      mapContains pw id = true →
      ∃ r, BlobsFrame.blobsGetReq r id ∈ (havesLoop pw nxt anns).2.2 ∧
        mapLookup (havesLoop pw nxt anns).1 id = some (.requested r) := by
  induction anns with
  | nil => intro pw nxt id _ hmem; simp at hmem
  | cons hd tl ih =>
      intro pw nxt id hnd hmem hc
      obtain ⟨b, d⟩ := hd
      rcases List.mem_cons.mp hmem with hib | htl
      · subst hib
        have hcb : mapContains pw id = true := hc
        simp only [havesLoop, hcb, if_pos]
        refine ⟨nxt, List.mem_cons_self _ _, ?_⟩
        have hnotin : id ∉ tl.map Prod.fst := by
          have := hnd
          simp only [List.map_cons, List.nodup_cons] at this
          exact this.1
        rw [havesLoop_lookup_notmem tl _ _ _ hnotin, mapLookup_mapInsert]
        simp
      · have hib : ¬b = id := by
          intro hh
          subst hh
          have := hnd
          simp only [List.map_cons, List.nodup_cons] at this
          exact this.1 htl
        have hndtl : (tl.map Prod.fst).Nodup := by
          have := hnd
          simp only [List.map_cons, List.nodup_cons] at this
          exact this.2
        by_cases hcb : mapContains pw b = true
        · simp only [havesLoop, hcb, if_pos]
          have hc' : mapContains (mapInsert pw b (Wants.requested nxt)) id = true := by
            rw [mapContains_mapInsert_of_contains pw b id _ hcb]
            exact hc
          obtain ⟨r, hfr, hlk⟩ := ih (mapInsert pw b (.requested nxt)) (nxt + 1) id hndtl htl hc'
          exact ⟨r, List.mem_cons_of_mem _ hfr, hlk⟩
        · simp only [havesLoop, if_neg hcb]
          exact ih pw nxt id hndtl htl hc

/-- No `blobs.get` request is issued for an id that is unannounced or has
no wants-table entry, and its entry is untouched. -/
theorem havesLoop_absent (anns : List (String × Int)) :
    ∀ pw nxt id, (mapContains pw id = false ∨ id ∉ anns.map Prod.fst) →
      (∀ r, BlobsFrame.blobsGetReq r id ∉ (havesLoop pw nxt anns).2.2) ∧
        mapLookup (havesLoop pw nxt anns).1 id = mapLookup pw id := by
  induction anns with
  | nil => intro pw nxt id _; simp [havesLoop]
  | cons hd tl ih =>
      intro pw nxt id hyp
      obtain ⟨b, d⟩ := hd
      by_cases hcb : mapContains pw b = true
      · have hib : ¬b = id := by
          intro hh
          subst hh
          rcases hyp with hfc | hnm
          · rw [hcb] at hfc; cases hfc
          · exact hnm (by simp [List.mem_cons])
        have hyp' : mapContains (mapInsert pw b (Wants.requested nxt)) id = false ∨
            id ∉ tl.map Prod.fst := by
          rcases hyp with hfc | hnm
          · left
            rw [mapContains_mapInsert_of_contains pw b id _ hcb]
            exact hfc
          · right
            intro hh
            exact hnm (List.mem_cons_of_mem _ hh)
        obtain ⟨hfr, hlk⟩ := ih (mapInsert pw b (.requested nxt)) (nxt + 1) id hyp'
        simp only [havesLoop, hcb, if_pos]
        constructor
        · intro r hmem
          rcases List.mem_cons.mp hmem with hh | hh
          · exact hib (by cases hh; rfl)
          · exact hfr r hh
        · rw [hlk, mapLookup_mapInsert]
          simp [hib]
      · have hyp' : mapContains pw id = false ∨ id ∉ tl.map Prod.fst := by
          rcases hyp with hfc | hnm
          · exact Or.inl hfc
          · exact Or.inr fun hh => hnm (List.mem_cons_of_mem _ hh)
        simp only [havesLoop, if_neg hcb]
        exact ih pw nxt id hyp'

/-- The `recv_haves` loop writes only `Requested` values, so an `Available`
entry after it was already `Available` before. -/
theorem havesLoop_available (anns : List (String × Int)) :
    ∀ pw nxt b, mapLookup (havesLoop pw nxt anns).1 b = some .available →
      mapLookup pw b = some .available := by
  induction anns with
  | nil => intro pw nxt b h; simpa [havesLoop] using h
  | cons hd tl ih =>
      intro pw nxt b h
      obtain ⟨k, d⟩ := hd
      by_cases hc : mapContains pw k = true
      · simp only [havesLoop, hc, if_pos] at h
        have := ih _ _ _ h
        rw [mapLookup_mapInsert] at this
        by_cases hkb : k = b
        · simp [hkb] at this
        · simpa [hkb] using this
      · simp only [havesLoop, if_neg hc] at h
        exact ih _ _ _ h

/-- `recv_wants` writes only `Pending` values, so an `Available` entry
after it was already `Available` before; it performs no store insert. -/
theorem recv_wants_available (s : BlobsWantsState) (payload : BlobsPayload)
    (b : String)
    (h : mapLookup (recv_wants s payload).state.peer_wants b = some .available) :
    mapLookup s.peer_wants b = some .available := by
  cases payload with
  | raw bytes => simpa [recv_wants, BlobsPayload.parseMap, blobsNoop] using h
  | json m =>
      cases hpn : s.peer_wants_req_no with
      | none =>
          simp only [recv_wants, BlobsPayload.parseMap, hpn, blobsNoop] at h
          rw [wantsLoop_lookup] at h
          split at h
          · cases h
          · exact h
      | some p =>
          simp only [recv_wants, BlobsPayload.parseMap, hpn] at h
          rw [wantsLoop_lookup] at h
          split at h
          · cases h
          · exact h

/-- `recv_haves` writes only `Requested` values and performs no store
insert. -/
theorem recv_haves_available (s : BlobsWantsState) (payload : BlobsPayload)
    (b : String)
    (h : mapLookup (recv_haves s payload).state.peer_wants b = some .available) :
    mapLookup s.peer_wants b = some .available := by
  cases payload with
  | raw bytes => simpa [recv_haves, BlobsPayload.parseMap, blobsNoop] using h
  | json m =>
      simp only [recv_haves, BlobsPayload.parseMap] at h
      exact havesLoop_available _ _ _ _ h

/-- `recv_blobs_get` marks an entry `Available` only in the same step in
which a store insert of the arriving bytes succeeded, and that insert is
recorded. -/
theorem recv_blobs_get_available (hash : List Nat → String)
    (insert_ok : List Nat → Bool) (s : BlobsWantsState) (req_no : Int)
    (payload : BlobsPayload) (b : String)
    (h : mapLookup (recv_blobs_get hash insert_ok s req_no payload).state.peer_wants b
        = some .available) :
    mapLookup s.peer_wants b = some .available ∨
      ∃ d, (b, d) ∈ (recv_blobs_get hash insert_ok s req_no payload).inserts ∧
        insert_ok d = true := by
  cases hf : s.peer_wants.find? (fun e => e.2 == Wants.requested req_no) with
  | none =>
      simp only [recv_blobs_get, hf, blobsNoop] at h
      exact Or.inl h
  | some entry =>
      by_cases hok : insert_ok payload.bytes = true
      · simp only [recv_blobs_get, hf, hok, if_pos] at h ⊢
        rw [mapLookup_mapInsert] at h
        by_cases heb : entry.1 = b
        · exact Or.inr ⟨payload.bytes, by simp [heb], hok⟩
        · rw [if_neg heb] at h
          exact Or.inl h
      · simp only [recv_blobs_get, hf, hok] at h ⊢
        simp only [Bool.not_eq_true] at hok
        simp only [hok, Bool.false_eq_true, if_false] at h
        exact Or.inl h

/-- One handler step makes an entry `Available` only if it was already
`Available` or the step performed a successful store insert for it. -/
theorem blobsHandle_available_source (hash : List Nat → String)
    (insert_ok : List Nat → Bool) (s : BlobsWantsState) (i : BlobsInput)
    (b : String)
    (h : mapLookup (blobsHandle hash insert_ok s i).state.peer_wants b
        = some .available) :
    mapLookup s.peer_wants b = some .available ∨
      ∃ d, (b, d) ∈ (blobsHandle hash insert_ok s i).inserts ∧
        insert_ok d = true := by
  cases i with
  | network req_no msg =>
      cases msg with
      | rpcRequest method =>
          cases method with
          | blobsCreateWants =>
              simp only [blobsHandle, recv_create_wants] at h ⊢
              split at h <;> exact Or.inl (by simpa [blobsNoop] using h)
          | otherMethod => exact Or.inl (by simpa [blobsHandle, blobsNoop] using h)
      | rpcResponse payload =>
          by_cases h1 : (s.my_wants_req_no == some req_no) = true
          · simp only [blobsHandle, h1, if_true] at h ⊢
            exact Or.inl (recv_wants_available _ _ _ h)
          · by_cases h2 : (s.peer_wants_req_no == some req_no) = true
            · simp only [blobsHandle, h1, h2, if_true, Bool.false_eq_true,
                if_false] at h ⊢
              exact Or.inl (recv_haves_available _ _ _ h)
            · by_cases h3 :
                  (s.peer_wants.any fun e => e.2 == Wants.requested req_no) = true
              · simp only [blobsHandle, h1, h2, h3, if_true, Bool.false_eq_true,
                  if_false] at h ⊢
                exact recv_blobs_get_available _ _ _ _ _ _ h
              · simp only [blobsHandle, h1, h2, h3, Bool.false_eq_true,
                  if_false] at h ⊢
                exact Or.inl (by simpa [blobsNoop] using h)
      | errorResponse text =>
          simp only [blobsHandle] at h
          split at h <;> exact Or.inl (by simpa [blobsNoop] using h)
  | message msg =>
      cases msg with
      | rpcBlobsWants ids =>
          simp only [blobsHandle, event_wants_broadcast] at h
          split at h <;> exact Or.inl (by simpa [blobsNoop] using h)
      | storeBlob blob_id =>
          simp only [blobsHandle, event_stoblob_added] at h
          split at h
          · split at h <;> exact Or.inl (by simpa [blobsNoop] using h)
          · exact Or.inl (by simpa [blobsNoop] using h)
      | otherMsg => exact Or.inl (by simpa [blobsHandle, blobsNoop] using h)
  | timer =>
      simp only [blobsHandle] at h
      split at h
      · exact Or.inl h
      · exact Or.inl (by simpa [blobsNoop] using h)
  | noInput => exact Or.inl (by simpa [blobsHandle, blobsNoop] using h)

/-- Over any input sequence, an `Available` entry in the final wants table
was already `Available` initially or a successful store insert for it was
performed along the way. -/
theorem blobsRun_available (hash : List Nat → String)
    (insert_ok : List Nat → Bool) (trace : List BlobsInput) :
    ∀ s b, mapLookup (blobsRun hash insert_ok s trace).1.peer_wants b
        = some .available →
      mapLookup s.peer_wants b = some .available ∨
        ∃ d, (b, d) ∈ (blobsRun hash insert_ok s trace).2 ∧
          insert_ok d = true := by
  induction trace with
  | nil => intro s b h; exact Or.inl h
  | cons i rest ih =>
      intro s b h
      simp only [blobsRun] at h ⊢
      rcases ih (blobsHandle hash insert_ok s i).state b h with h1 | ⟨d, hd, hok⟩
      · rcases blobsHandle_available_source hash insert_ok s i b h1 with
          h2 | ⟨d, hd, hok⟩
        · exact Or.inl h2
        · exact Or.inr ⟨d, List.mem_append_left _ hd, hok⟩
      · exact Or.inr ⟨d, List.mem_append_right _ hd, hok⟩

/-! ### Claim theorems for the KV store and the blobs wants handler -/

/-- C2: divergence of `get_pending_blobs` at a store holding one pending
blob and one peer-registry entry.  The range scan `db.range([0x03]..)` has
no upper bound, so it also visits the peer key (prefix `0x04`) whose value
is an 8-byte big-endian integer; CBOR-decoding that value as a `BlobStatus`
fails and the whole call returns a `Cbor` error instead of the pending-blob
list — the result is not unaffected by peer entries, contrary to the claim
and to the function's own doc comment.  Without the peer entry the very
same store yields the correct answer, in ascending key order. -/
theorem get_pending_blobs_peer_entry_divergence :
    get_pending_blobs
        (set_peer (set_blob [] ("b2") { retrieved := false, users := [("u2")] }) ("a") 1)
      = .error .cbor ∧
    get_pending_blobs (set_blob [] ("b2") { retrieved := false, users := [("u2")] })
      = .ok [("b2")] := by
  constructor <;> rfl

/-- C4: `append_feed` succeeds exactly when the message's sequence equals
the stored latest sequence of its author plus one (an absent latest
sequence counting as zero); otherwise it returns `InvalidSequence`, leaves
the store unchanged and emits no event. -/
theorem append_feed_invalid_sequence (db : Db) (m : MessageValue) :
    ((append_feed db m).result = .error .invalidSequence ↔
        m.sequence ≠ (get_latest_seq db m.author).getD 0 + 1) ∧
    (m.sequence ≠ (get_latest_seq db m.author).getD 0 + 1 →
        append_feed db m = { db := db, result := .error .invalidSequence, events := [] }) ∧
    (m.sequence = (get_latest_seq db m.author).getD 0 + 1 →
        (append_feed db m).result = .ok m.sequence ∧
        (append_feed db m).events = [.idChanged m.author]) := by
  unfold append_feed
  by_cases h : m.sequence = (get_latest_seq db m.author).getD 0 + 1 <;>
    simp [h]

/-- Witness for C4: appending a first message with sequence 2 to an empty
store returns `InvalidSequence` and the store remains empty. -/
theorem append_feed_invalid_sequence_witness :
    append_feed [] { author := ("a"), sequence := 2, id := ("m1") }
      = { db := [], result := .error .invalidSequence, events := [] } :=
  (append_feed_invalid_sequence [] { author := ("a"), sequence := 2, id := ("m1") }).2.1
    (by decide)

/-- C8: across every input sequence processed by the blobs wants handler
from its initial state, a wants-table entry holds `Available` only if a
store insert of the blob bytes received for that entry succeeded at some
step; no operation sets an entry to `Available` without such a successful
insert. -/
theorem blobs_available_only_after_insert (hash : List Nat → String)
    (insert_ok : List Nat → Bool) (store0 : BlobStore) (api_start : Int)
    (trace : List BlobsInput) (b : String)
    (h : mapLookup
        (blobsRun hash insert_ok (blobsInit store0 api_start) trace).1.peer_wants b
        = some .available) :
    ∃ d, (b, d) ∈ (blobsRun hash insert_ok (blobsInit store0 api_start) trace).2 ∧
      insert_ok d = true := by
  rcases blobsRun_available hash insert_ok trace (blobsInit store0 api_start) b h with
    h1 | h2
  · simp [blobsInit, mapLookup] at h1
  · exact h2

/-- Witness for C8: a full want/have/get exchange that ends with entry
`"b"` in state `Available`, whose insert is recorded in the run log. -/
theorem blobs_available_only_after_insert_witness :
    (mapLookup (blobsRun (fun _ => ("b")) (fun _ => true) (blobsInit ⟨[]⟩ 1)
        [.timer,
         .network 5 (.rpcRequest .blobsCreateWants),
         .network 1 (.rpcResponse (.json [(("b"), 0)])),
         .network 5 (.rpcResponse (.json [(("b"), 7)])),
         .network 2 (.rpcResponse (.raw [9, 9]))]).1.peer_wants ("b")
      = some .available) ∧
    ∃ d, (("b"), d) ∈ (blobsRun (fun _ => ("b")) (fun _ => true) (blobsInit ⟨[]⟩ 1)
        [.timer,
         .network 5 (.rpcRequest .blobsCreateWants),
         .network 1 (.rpcResponse (.json [(("b"), 0)])),
         .network 5 (.rpcResponse (.json [(("b"), 7)])),
         .network 2 (.rpcResponse (.raw [9, 9]))]).2 ∧
      (fun (_ : List Nat) => true) d = true :=
  ⟨by decide,
   blobs_available_only_after_insert (fun _ => ("b")) (fun _ => true) ⟨[]⟩ 1
     [.timer,
      .network 5 (.rpcRequest .blobsCreateWants),
      .network 1 (.rpcResponse (.json [(("b"), 0)])),
      .network 5 (.rpcResponse (.json [(("b"), 7)])),
      .network 2 (.rpcResponse (.raw [9, 9]))] ("b") (by decide)⟩

/-- C9: the handler hits `Option::unwrap` on `None` (modelled as the
`unwrapNone` outcome, a Rust panic) at its public interface: an
`RpcBlobsWants` broker broadcast arriving before the first `Timer` input
panics on `my_wants_req_no` in `event_wants_broadcast`, and a wants map
arriving on `my_wants_req_no` before the peer has sent
`blobs.createWants` panics on `peer_wants_req_no` in `recv_wants`. -/
theorem blobs_unwrap_panics :
    ((blobsHandle (fun _ => ("h")) (fun _ => true) (blobsInit ⟨[]⟩ 1)
        (.message (.rpcBlobsWants [(("b"), 0)]))).result
      = .error (.unwrapNone ("my_wants_req_no"))) ∧
    ((blobsHandle (fun _ => ("h")) (fun _ => true)
        (blobsHandle (fun _ => ("h")) (fun _ => true) (blobsInit ⟨[]⟩ 1) .timer).state
        (.network 1 (.rpcResponse (.json [(("b"), 0)])))).result
      = .error (.unwrapNone ("peer_wants_req_no"))) := by
  constructor <;> rfl

/-- C3 counterexample: an announced blob id whose wants-table entry is
`Available` (not `Pending`) does trigger a new `blobs.get` request —
`get_mut` matches any present entry — and the entry is reset to
`Requested`, refuting the claim that only `Pending` entries are fetched. -/
theorem recv_haves_available_requeried :
    (blobsHandle (fun _ => ("h")) (fun _ => true)
        { inited := true, my_wants_req_no := some 1, peer_wants_req_no := some 5,
          peer_wants := [(("b"), Wants.available)], api_next_req_no := 2,
          store := ⟨[]⟩ }
        (.network 5 (.rpcResponse (.json [(("b"), 3)])))).frames
      = [.blobsGetReq 2 ("b")] ∧
    (blobsHandle (fun _ => ("h")) (fun _ => true)
        { inited := true, my_wants_req_no := some 1, peer_wants_req_no := some 5,
          peer_wants := [(("b"), Wants.available)], api_next_req_no := 2,
          store := ⟨[]⟩ }
        (.network 5 (.rpcResponse (.json [(("b"), 3)])))).state.peer_wants
      = [(("b"), Wants.requested 2)] := by
  constructor <;> rfl

/-- C3 (amended): on a haves announcement received on `peer_wants_req_no`,
the handler issues a `blobs.get` request and transitions the entry to
`Requested(r)` exactly for those announced ids that currently have a
wants-table entry, in whatever state (`Pending`, `Requested` or
`Available`); ids without an entry, or not announced, trigger no request
and keep their entry unchanged. -/
theorem recv_haves_requests_present_entries (hash : List Nat → String)
    (insert_ok : List Nat → Bool) (s : BlobsWantsState) (p : Int)
    (anns : List (String × Int))
    (hpeer : s.peer_wants_req_no = some p)
    (hmy : s.my_wants_req_no ≠ some p)
    (hnodup : (anns.map Prod.fst).Nodup) :
    (blobsHandle hash insert_ok s (.network p (.rpcResponse (.json anns)))).result
      = .ok true ∧
    (∀ id, id ∈ anns.map Prod.fst → mapContains s.peer_wants id = true →
      ∃ r, BlobsFrame.blobsGetReq r id
            ∈ (blobsHandle hash insert_ok s (.network p (.rpcResponse (.json anns)))).frames ∧
        mapLookup (blobsHandle hash insert_ok s
            (.network p (.rpcResponse (.json anns)))).state.peer_wants id
          = some (.requested r)) ∧
    (∀ id, ¬(id ∈ anns.map Prod.fst ∧ mapContains s.peer_wants id = true) →
      (∀ r, BlobsFrame.blobsGetReq r id
            ∉ (blobsHandle hash insert_ok s (.network p (.rpcResponse (.json anns)))).frames) ∧
        mapLookup (blobsHandle hash insert_ok s
            (.network p (.rpcResponse (.json anns)))).state.peer_wants id
          = mapLookup s.peer_wants id) := by
  have hroute : blobsHandle hash insert_ok s (.network p (.rpcResponse (.json anns)))
      = recv_haves s (.json anns) := by
    have h1 : (s.my_wants_req_no == some p) = false := beq_eq_false_iff_ne.mpr hmy
    have h2 : (s.peer_wants_req_no == some p) = true := by simp [hpeer]
    simp [blobsHandle, h1, h2]
  rw [hroute]
  simp only [recv_haves, BlobsPayload.parseMap]
  refine ⟨trivial, ?_, ?_⟩
  · intro id hmem hc
    exact havesLoop_present anns s.peer_wants s.api_next_req_no id hnodup hmem hc
  · intro id hyp
    have hyp' : mapContains s.peer_wants id = false ∨ id ∉ anns.map Prod.fst := by
      by_cases hm : id ∈ anns.map Prod.fst
      · left
        by_cases hcc : mapContains s.peer_wants id = true
        · exact absurd ⟨hm, hcc⟩ hyp
        · simpa using hcc
      · exact Or.inr hm
    exact havesLoop_absent anns s.peer_wants s.api_next_req_no id hyp'

/-- Witness for C3 (amended): with entry `"b"` held as `Pending` and
announcement `{b: 3, c: 4}`, a `blobs.get` for `"b"` is issued and its
entry becomes `Requested`. -/
theorem recv_haves_requests_present_entries_witness :
    ∃ r, BlobsFrame.blobsGetReq r ("b")
          ∈ (blobsHandle (fun _ => ("h")) (fun _ => true)
              { inited := true, my_wants_req_no := some 1,
                peer_wants_req_no := some 5,
                peer_wants := [(("b"), Wants.pending)], api_next_req_no := 2,
                store := ⟨[]⟩ }
              (.network 5 (.rpcResponse (.json [(("b"), 3), (("c"), 4)])))).frames ∧
      mapLookup (blobsHandle (fun _ => ("h")) (fun _ => true)
          { inited := true, my_wants_req_no := some 1,
            peer_wants_req_no := some 5,
            peer_wants := [(("b"), Wants.pending)], api_next_req_no := 2,
            store := ⟨[]⟩ }
          (.network 5 (.rpcResponse (.json [(("b"), 3), (("c"), 4)])))).state.peer_wants
        ("b") = some (.requested r) :=
  (recv_haves_requests_present_entries (fun _ => ("h")) (fun _ => true)
      { inited := true, my_wants_req_no := some 1, peer_wants_req_no := some 5,
        peer_wants := [(("b"), Wants.pending)], api_next_req_no := 2,
        store := ⟨[]⟩ }
      5 [(("b"), 3), (("c"), 4)] rfl (by decide) (by decide)).2.1
    ("b") (by decide) (by decide)

/-- C6: on a wants map received on `my_wants_req_no`, the handler sends a
single JSON haves response on `peer_wants_req_no` containing exactly the
wanted ids present in the blob store paired with their stored sizes, sends
a single `RpcBlobsWants` broadcast containing exactly the wanted ids
absent from the store with distance incremented by one, and inserts
exactly the absent wanted ids into the wants table as `Pending`. -/
theorem recv_wants_haves_and_broadcast (hash : List Nat → String)
    (insert_ok : List Nat → Bool) (s : BlobsWantsState) (m p : Int)
    (wants : List (String × Int))
    (hmy : s.my_wants_req_no = some m)
    (hpeer : s.peer_wants_req_no = some p)
    (hnodup : (wants.map Prod.fst).Nodup) :
    ∃ haves bc,
      (blobsHandle hash insert_ok s (.network m (.rpcResponse (.json wants)))).frames
        = [.response p haves] ∧
      (blobsHandle hash insert_ok s (.network m (.rpcResponse (.json wants)))).broadcasts
        = [bc] ∧
      (blobsHandle hash insert_ok s (.network m (.rpcResponse (.json wants)))).result
        = .ok true ∧
      (∀ id v, (id, v) ∈ haves ↔
        ∃ d, (id, d) ∈ wants ∧ ∃ n, s.store.size_of id = some n ∧ v = (n : Int)) ∧
      (∀ id v, (id, v) ∈ bc ↔
        ∃ d, (id, d) ∈ wants ∧ s.store.size_of id = none ∧ v = d + 1) ∧
      (∀ id, mapLookup (blobsHandle hash insert_ok s
            (.network m (.rpcResponse (.json wants)))).state.peer_wants id =
        if id ∈ wants.map Prod.fst ∧ s.store.size_of id = none then
          some .pending
        else mapLookup s.peer_wants id) := by
  have hroute : blobsHandle hash insert_ok s (.network m (.rpcResponse (.json wants)))
      = recv_wants s (.json wants) := by
    have h1 : (s.my_wants_req_no == some m) = true := by simp [hmy]
    simp [blobsHandle, h1]
  rw [hroute]
  refine ⟨(wantsLoop s.store s.peer_wants wants).2.1,
          (wantsLoop s.store s.peer_wants wants).2.2, ?_, ?_, ?_, ?_, ?_, ?_⟩
  · simp [recv_wants, BlobsPayload.parseMap, hpeer]
  · simp [recv_wants, BlobsPayload.parseMap, hpeer]
  · simp [recv_wants, BlobsPayload.parseMap, hpeer]
  · intro id v
    exact wantsLoop_haves_mem s.store wants s.peer_wants id v
  · intro id v
    exact wantsLoop_broadcast_mem s.store wants s.peer_wants id v
  · intro id
    have hpw : (recv_wants s (.json wants)).state.peer_wants
        = (wantsLoop s.store s.peer_wants wants).1 := by
      simp [recv_wants, BlobsPayload.parseMap, hpeer]
    rw [hpw, wantsLoop_lookup]

/-- Witness for C6: wants `{x: 0, y: 4}` against a store holding `"x"`
with 3 bytes. -/
theorem recv_wants_haves_and_broadcast_witness :
    ∃ haves bc,
      (blobsHandle (fun _ => ("h")) (fun _ => true)
          { inited := true, my_wants_req_no := some 1, peer_wants_req_no := some 5,
            peer_wants := [], api_next_req_no := 2,
            store := ⟨[(("x"), [1, 2, 3])]⟩ }
          (.network 1 (.rpcResponse (.json [(("x"), 0), (("y"), 4)])))).frames
        = [.response 5 haves] ∧
      (blobsHandle (fun _ => ("h")) (fun _ => true)
          { inited := true, my_wants_req_no := some 1, peer_wants_req_no := some 5,
            peer_wants := [], api_next_req_no := 2,
            store := ⟨[(("x"), [1, 2, 3])]⟩ }
          (.network 1 (.rpcResponse (.json [(("x"), 0), (("y"), 4)])))).broadcasts
        = [bc] ∧
      (blobsHandle (fun _ => ("h")) (fun _ => true)
          { inited := true, my_wants_req_no := some 1, peer_wants_req_no := some 5,
            peer_wants := [], api_next_req_no := 2,
            store := ⟨[(("x"), [1, 2, 3])]⟩ }
          (.network 1 (.rpcResponse (.json [(("x"), 0), (("y"), 4)])))).result
        = .ok true ∧
      (∀ id v, (id, v) ∈ haves ↔
        ∃ d, (id, d) ∈ [(("x"), (0 : Int)), (("y"), 4)] ∧
          ∃ n, BlobStore.size_of ⟨[(("x"), [1, 2, 3])]⟩ id = some n ∧ v = (n : Int)) ∧
      (∀ id v, (id, v) ∈ bc ↔
        ∃ d, (id, d) ∈ [(("x"), (0 : Int)), (("y"), 4)] ∧
          BlobStore.size_of ⟨[(("x"), [1, 2, 3])]⟩ id = none ∧ v = d + 1) ∧
      (∀ id, mapLookup (blobsHandle (fun _ => ("h")) (fun _ => true)
            { inited := true, my_wants_req_no := some 1, peer_wants_req_no := some 5,
              peer_wants := [], api_next_req_no := 2,
              store := ⟨[(("x"), [1, 2, 3])]⟩ }
            (.network 1 (.rpcResponse (.json [(("x"), 0), (("y"), 4)])))).state.peer_wants
          id =
        if id ∈ [(("x"), (0 : Int)), (("y"), 4)].map Prod.fst ∧
            BlobStore.size_of ⟨[(("x"), [1, 2, 3])]⟩ id = none then
          some .pending
        else mapLookup [] id) :=
  recv_wants_haves_and_broadcast (fun _ => ("h")) (fun _ => true)
    { inited := true, my_wants_req_no := some 1, peer_wants_req_no := some 5,
      peer_wants := [], api_next_req_no := 2,
      store := ⟨[(("x"), [1, 2, 3])]⟩ }
    1 5 [(("x"), 0), (("y"), 4)] rfl rfl (by decide)

/-- C7: blob payload bytes arriving on a request number held as
`Requested(n)` are inserted into the blob store and the entry becomes
`Available` even when the content hash of the bytes differs from the
expected blob id; the mismatch only produces a log warning. -/
theorem recv_blobs_get_mismatch_still_inserts (hash : List Nat → String)
    (insert_ok : List Nat → Bool) (s : BlobsWantsState) (req_no : Int)
    (payload : BlobsPayload) (b : String)
    (hmy : s.my_wants_req_no ≠ some req_no)
    (hpeer : s.peer_wants_req_no ≠ some req_no)
    (hfind : s.peer_wants.find? (fun e => e.2 == Wants.requested req_no)
        = some (b, Wants.requested req_no))
    (hok : insert_ok payload.bytes = true)
    (hmismatch : hash payload.bytes ≠ b) :
    (blobsHandle hash insert_ok s (.network req_no (.rpcResponse payload))).result
      = .ok true ∧
    mapLookup (blobsHandle hash insert_ok s
        (.network req_no (.rpcResponse payload))).state.peer_wants b
      = some .available ∧
    mapLookup (blobsHandle hash insert_ok s
        (.network req_no (.rpcResponse payload))).state.store.blobs
        (hash payload.bytes)
      = some payload.bytes ∧
    (blobsHandle hash insert_ok s (.network req_no (.rpcResponse payload))).warns
      ≠ [] ∧
    (blobsHandle hash insert_ok s (.network req_no (.rpcResponse payload))).inserts
      = [(b, payload.bytes)] := by
  have hany : (s.peer_wants.any fun e => e.2 == Wants.requested req_no) = true := by
    have hmem := List.mem_of_find?_eq_some hfind
    have hp := List.find?_some hfind
    exact List.any_eq_true.mpr ⟨_, hmem, hp⟩
  have hroute : blobsHandle hash insert_ok s (.network req_no (.rpcResponse payload))
      = recv_blobs_get hash insert_ok s req_no payload := by
    have h1 : (s.my_wants_req_no == some req_no) = false := beq_eq_false_iff_ne.mpr hmy
    have h2 : (s.peer_wants_req_no == some req_no) = false :=
      beq_eq_false_iff_ne.mpr hpeer
    simp [blobsHandle, h1, h2, hany]
  rw [hroute]
  simp only [recv_blobs_get, hfind, hok, if_true]
  refine ⟨trivial, ?_, ?_, ?_, trivial⟩
  · rw [mapLookup_mapInsert]
    simp
  · simp [BlobStore.insertBlob, mapLookup_mapInsert]
  · simp [hmismatch]

/-- Witness for C7: bytes `[9]` arriving for entry `"b"` held as
`Requested(2)`, with a hash function that yields a different id. -/
theorem recv_blobs_get_mismatch_still_inserts_witness :
    mapLookup (blobsHandle (fun _ => ("x")) (fun _ => true)
        { inited := true, my_wants_req_no := some 1, peer_wants_req_no := some 5,
          peer_wants := [(("b"), Wants.requested 2)], api_next_req_no := 3,
          store := ⟨[]⟩ }
        (.network 2 (.rpcResponse (.raw [9])))).state.peer_wants ("b")
      = some .available ∧
    (blobsHandle (fun _ => ("x")) (fun _ => true)
        { inited := true, my_wants_req_no := some 1, peer_wants_req_no := some 5,
          peer_wants := [(("b"), Wants.requested 2)], api_next_req_no := 3,
          store := ⟨[]⟩ }
        (.network 2 (.rpcResponse (.raw [9])))).warns ≠ [] :=
  ⟨(recv_blobs_get_mismatch_still_inserts (fun _ => ("x")) (fun _ => true)
      { inited := true, my_wants_req_no := some 1, peer_wants_req_no := some 5,
        peer_wants := [(("b"), Wants.requested 2)], api_next_req_no := 3,
        store := ⟨[]⟩ }
      2 (.raw [9]) ("b") (by decide) (by decide) (by decide) (by decide)
      (by decide)).2.1,
   (recv_blobs_get_mismatch_still_inserts (fun _ => ("x")) (fun _ => true)
      { inited := true, my_wants_req_no := some 1, peer_wants_req_no := some 5,
        peer_wants := [(("b"), Wants.requested 2)], api_next_req_no := 3,
        store := ⟨[]⟩ }
      2 (.raw [9]) ("b") (by decide) (by decide) (by decide) (by decide)
      (by decide)).2.2.2.1⟩

end Solar
